import Mathlib

/-!
Verification of the video-splitter front end (src/unnamed/part_000, the
`VideoSplitter` component, and src/unnamed/part_001, the utils module).

The component's handlers are translated into pure Lean functions over an
explicit `Session` record holding the React state of the component
(`status`, `error`, `warning`, `progress`, `selectedFile`, `videoDuration`,
`splitFiles`, `useServerProcessing`) plus the `currentJobIdRef` ref.
Asynchronous collaborators are passed in as explicit environments:
the duration probe result (`ProbeResult`), the ffmpeg codec runtime
(`CodecEnv`, saying which of its fallible steps succeed), and the remote
job service (`ServerEnv`: the upload outcome and the scripted sequence of
poll responses).  Durations and progress values are modelled as rationals;
byte sizes are naturals.  Opaque retrieval references (object URLs /
download URLs) and the cosmetic `progressText` string are omitted: no
claim mentions them.  User-facing Japanese message strings are represented
by symbolic constructors (`SessionError`, `Warning`), one per distinct
message produced by the source.
-/

namespace VideoSplitter

/-- Source constant `SEGMENT_DURATION = 120` (seconds). -/
def SEGMENT_DURATION : ℚ := 120

/-- Source constant `BROWSER_MAX_SIZE = 300 * 1024 * 1024` (bytes). -/
def BROWSER_MAX_SIZE : ℕ := 300 * 1024 * 1024

/-- Source constant `SERVER_MAX_SIZE = 5 * 1024 * 1024 * 1024` (bytes). -/
def SERVER_MAX_SIZE : ℕ := 5 * 1024 * 1024 * 1024

/-- A picked `File`: its `name`, `size` in bytes, and MIME `type`. -/
structure MediaFile where
  name : String
  size : ℕ
  mediaType : String
deriving DecidableEq

/-- The component's `Status` union type. -/
inductive Status
  | idle | loading | ready | processing | completed | error
deriving DecidableEq

/-- The two advisory messages set into the `warning` state
(`'この動画は2分以下のため、分割不要です'` and
`'大きなファイルのため、サーバーで処理します。…'`). -/
inductive Warning
  | noSplitNeeded | largeFileUsingRemote
deriving DecidableEq

/-- Failure causes of a browser-side (local) split run: `ffmpeg.load()`,
`fetchFile`/`FS('writeFile', …)`, a per-segment `ffmpeg.run`, or a
per-segment `FS('readFile', …)`. -/
inductive LocalCause
  | runtimeLoad
  | fetchFailed
  | transcodeFailed (i : ℕ)
  | readFailed (i : ℕ)
deriving DecidableEq

/-- Failure causes of a server-side split run: the upload `POST /split`
(`'アップロードに失敗しました'`), a non-ok `GET /status` response
(`'状態の取得に失敗しました'`), or the service reporting status `error`
with an optional detail string. -/
inductive ServerCause
  | uploadFailed
  | statusFetchFailed
  | remote (detail : Option String)
deriving DecidableEq

/-- The distinct messages the source writes into the `error` state. -/
inductive SessionError
  | notAVideo
  | fileTooLarge
  | mediaReadError
  | localProcessing (c : LocalCause)
  | serverProcessing (c : ServerCause)
deriving DecidableEq

/-- One entry of the `splitFiles` state (`SplitFile` in the source).  The
retrieval reference (`url` for local results, `downloadUrl` for remote
ones) is an opaque handle and is omitted. -/
structure SplitFile where
  name : String
  partNumber : ℕ
deriving DecidableEq

/-- The React state of the `VideoSplitter` component together with the
`currentJobIdRef` ref (the cosmetic `progressText` string is omitted). -/
structure Session where
  status : Status
  error : Option SessionError
  warning : Option Warning
  progress : ℚ
  selectedFile : Option MediaFile
  videoDuration : ℚ
  splitFiles : List SplitFile
  useServerProcessing : Bool
  currentJobId : Option String
deriving DecidableEq

/-- The initial state of the component: all hooks at their `useState`
initial values and `currentJobIdRef.current = null`. -/
def initialSession : Session :=
  { status := Status.idle, error := none, warning := none, progress := 0,
    selectedFile := none, videoDuration := 0, splitFiles := [],
    useServerProcessing := false, currentJobId := none }

/-- Outcome of `getVideoDuration`: the probed duration, or the media
metadata load error. -/
inductive ProbeResult
  | ok (duration : ℚ)
  | failed
deriving DecidableEq

/-- Source check `file.type.startsWith('video/')`, on the character list
of the MIME type. -/
def isVideoType (t : String) : Bool :=
  t.data.take 6 == "video/".data

/-- Utils `getBaseName`: `filename.replace(/\.[^/.]+$/, '')`.  The regex
matches a final dot followed by one or more characters that are neither a
dot nor a slash; when it matches, that suffix is removed, otherwise the
name is returned unchanged. -/
def getBaseName (s : String) : String :=
  let rev := s.data.reverse
  let ext := rev.takeWhile (fun c => c != '.' && c != '/')
  match rev.drop ext.length with
  | '.' :: base => if ext.isEmpty then s else String.mk base.reverse
  | _ => s

/-- `numParts` as computed in `splitVideoBrowser`:
`Math.ceil(videoDuration / SEGMENT_DURATION)`. -/
def numPartsOf (d : ℚ) : ℕ :=
  (Int.ceil (d / SEGMENT_DURATION)).toNat

/-- Result of `handleFileSelect`: the updated session, plus the job
cancellation side effect (`DELETE /job/{id}`) issued during the handler —
the source's `handleFileSelect` never issues one, so the field is always
`none` there; `handleReset` does issue one. -/
structure SelectResult where
  session : Session
  cancelRequested : Option String
deriving DecidableEq

/-- `handleFileSelect`, as a function of the picked file
(`event.target.files?.[0]`) and of the duration-probe outcome.  The
sequence of `setState` calls on each exit path is collapsed into a single
record update describing the state once the handler has finished (the
transient `loading` status held while awaiting the probe is not a final
state).  Mirrors source lines 52-93: clear error/warning/splitFiles/
progress; reject a non-video type; reject a file over `SERVER_MAX_SIZE`;
otherwise remember the file, decide `useServerProcessing` by
`BROWSER_MAX_SIZE`, probe the duration, and attach the advisory warning
(`duration <= SEGMENT_DURATION` first, then the large-file case). -/
def handleFileSelect (s : Session) (file? : Option MediaFile)
    (probe : ProbeResult) : SelectResult :=
  match file? with
  | none => { session := s, cancelRequested := none }
  | some file =>
    if isVideoType file.mediaType = false then
      { session := { s with error := some SessionError.notAVideo, warning := none,
                            splitFiles := [], progress := 0, status := Status.error },
        cancelRequested := none }
    else if SERVER_MAX_SIZE < file.size then
      { session := { s with error := some SessionError.fileTooLarge, warning := none,
                            splitFiles := [], progress := 0, status := Status.error },
        cancelRequested := none }
    else
      match probe with
      | ProbeResult.ok duration =>
        { session :=
            { s with error := none,
                     warning :=
                       if duration ≤ SEGMENT_DURATION then some Warning.noSplitNeeded
                       else if BROWSER_MAX_SIZE < file.size then
                         some Warning.largeFileUsingRemote
                       else none,
                     splitFiles := [], progress := 0,
                     selectedFile := some file,
                     useServerProcessing := decide (BROWSER_MAX_SIZE < file.size),
                     videoDuration := duration,
                     status := Status.ready },
          cancelRequested := none }
      | ProbeResult.failed =>
        { session :=
            { s with error := some SessionError.mediaReadError, warning := none,
                     splitFiles := [], progress := 0,
                     selectedFile := some file,
                     useServerProcessing := decide (BROWSER_MAX_SIZE < file.size),
                     status := Status.error },
          cancelRequested := none }

/-- Result of `handleReset`: the cleared session plus the best-effort
`DELETE /job/{id}` request issued when a job id was known. -/
structure ResetResult where
  session : Session
  cancelRequested : Option String
deriving DecidableEq

/-- `handleReset` (source lines 239-255): issue a best-effort delete for
the last known job id and null the ref, then clear every state hook back
to its initial value.  `useServerProcessing` is not touched by the
source's reset. -/
def handleReset (s : Session) : ResetResult :=
  { session := { status := Status.idle, error := none, warning := none,
                 selectedFile := none, videoDuration := 0, splitFiles := [],
                 progress := 0,
                 useServerProcessing := s.useServerProcessing,
                 currentJobId := none },
    cancelRequested := s.currentJobId }

/-! ## Local segmentation (`splitVideoBrowser`) -/

/-- Named buffers in the ffmpeg runtime's file system: the single input
buffer `'input.mp4'` and the per-segment outputs `` `output_${i}.mp4` ``. -/
inductive BufName
  | input
  | output (i : ℕ)
deriving DecidableEq

/-- One `ffmpeg.run` invocation as issued by the loop body:
`-i input.mp4 -ss startTime -t SEGMENT_DURATION -c copy
-avoid_negative_ts make_zero output_i.mp4`. -/
structure TranscodeCmd where
  input : BufName
  start : ℚ
  dur : ℚ
  streamCopy : Bool
  avoidNegativeTs : Bool
  output : BufName
deriving DecidableEq

/-- The codec-runtime collaborator: which of its fallible operations
succeed on this run (`load`, `fetchFile`/`writeFile`, and the
per-segment-index `run` and `readFile`). -/
structure CodecEnv where
  loadOk : Bool
  fetchOk : Bool
  runOk : ℕ → Bool
  readOk : ℕ → Bool

/-- The environment in which every codec-runtime step succeeds. -/
def envAllOk : CodecEnv :=
  { loadOk := true, fetchOk := true, runOk := fun _ => true, readOk := fun _ => true }

/-- The midpoint progress value set before segment `i`'s transcode:
`((i + 0.5) / numParts) * 100`. -/
def midProg (N i : ℕ) : ℚ :=
  (((i : ℚ) + 1/2) / (N : ℚ)) * 100

/-- The progress value set after segment `i` completes:
`((i + 1) / numParts) * 100`. -/
def endProg (N i : ℕ) : ℚ :=
  (((i : ℚ) + 1) / (N : ℚ)) * 100

/-- The progress values reported by the last `r` iterations of the
segment loop when the next segment index is `i`: the midpoint and the
endpoint value of each remaining segment, in order. -/
def trailProg (N : ℕ) : ℕ → ℕ → List ℚ
  | 0, _ => []
  | r + 1, i => midProg N i :: endProg N i :: trailProg N r (i + 1)

/-- The `SplitFile` pushed for segment `i`:
`` name = `${baseName}_part${i + 1}.mp4` ``, `partNumber = i + 1`. -/
def segFile (b : String) (i : ℕ) : SplitFile :=
  { name := b ++ "_part" ++ toString (i + 1) ++ ".mp4", partNumber := i + 1 }

/-- The `ffmpeg.run` arguments for segment `i`: start offset
`i * SEGMENT_DURATION`, duration argument the constant
`SEGMENT_DURATION`, stream copy (`-c copy`), and
`-avoid_negative_ts make_zero`. -/
def segCmd (i : ℕ) : TranscodeCmd :=
  { input := BufName.input, start := (i : ℚ) * SEGMENT_DURATION,
    dur := SEGMENT_DURATION, streamCopy := true, avoidNegativeTs := true,
    output := BufName.output i }

/-- Observable outcome of one `splitVideoBrowser` run: the segment list
published on success or the failure cause; the named buffers still held
in the runtime when the function exits; every progress value reported, in
order; and every transcode invocation issued, in order. -/
structure BrowserRunResult where
  outcome : Except LocalCause (List SplitFile)
  fsBuffers : List BufName
  progressTrace : List ℚ
  cmds : List TranscodeCmd

/-- The `for (let i = 0; i < numParts; i++)` loop of `splitVideoBrowser`,
by recursion on the number `r` of remaining iterations (`r + i = numParts`
at the call site).  Per iteration: report the midpoint progress, invoke
the transcode (recorded in `cmds`); on success the output buffer appears
in the runtime FS, is read, wrapped as a `SplitFile`, unlinked, and the
endpoint progress is reported.  Any failing step exits the whole `try`
block with the cause; nothing is unlinked on the failure path (the source
has no `finally`).  After the last iteration `'input.mp4'` is unlinked
and the accumulated list becomes the outcome. -/
def segLoop (env : CodecEnv) (b : String) (N : ℕ) :
    ℕ → ℕ → List BufName → List SplitFile → List ℚ → List TranscodeCmd →
    BrowserRunResult
  | 0, _, fs, files, prog, cmds =>
      { outcome := Except.ok files, fsBuffers := fs.erase BufName.input,
        progressTrace := prog, cmds := cmds }
  | r + 1, i, fs, files, prog, cmds =>
      if env.runOk i then
        if env.readOk i then
          segLoop env b N r (i + 1)
            ((fs ++ [BufName.output i]).erase (BufName.output i))
            (files ++ [segFile b i])
            ((prog ++ [midProg N i]) ++ [endProg N i])
            (cmds ++ [segCmd i])
        else
          { outcome := Except.error (LocalCause.readFailed i),
            fsBuffers := fs ++ [BufName.output i],
            progressTrace := prog ++ [midProg N i],
            cmds := cmds ++ [segCmd i] }
      else
        { outcome := Except.error (LocalCause.transcodeFailed i),
          fsBuffers := fs,
          progressTrace := prog ++ [midProg N i],
          cmds := cmds ++ [segCmd i] }

/-- `splitVideoBrowser` (source lines 153-214) for a selected file `f`:
set progress to 0, load the runtime, write the whole input into
`'input.mp4'`, then run the segment loop. -/
def splitVideoBrowser (env : CodecEnv) (f : MediaFile) (videoDuration : ℚ) :
    BrowserRunResult :=
  if env.loadOk then
    if env.fetchOk then
      segLoop env (getBaseName f.name) (numPartsOf videoDuration)
        (numPartsOf videoDuration) 0 [BufName.input] [] [0] []
    else
      { outcome := Except.error LocalCause.fetchFailed, fsBuffers := [],
        progressTrace := [0], cmds := [] }
  else
    { outcome := Except.error LocalCause.runtimeLoad, fsBuffers := [],
      progressTrace := [0], cmds := [] }

/-- How a `splitVideoBrowser` run updates the session: on success the
list is published via `setSplitFiles` and the status becomes `completed`;
in the `catch` the error surfaces with its cause and the status becomes
`error`.  The session's `progress` holds the last value reported. -/
def applyBrowserRun (s : Session) (res : BrowserRunResult) : Session :=
  match res.outcome with
  | Except.ok files =>
      { s with status := Status.completed, splitFiles := files,
               progress := res.progressTrace.getLastD 0 }
  | Except.error c =>
      { s with status := Status.error,
               error := some (SessionError.localProcessing c),
               progress := res.progressTrace.getLastD 0 }

/-- `splitVideoBrowser`'s entry guard `if (!selectedFile) return` together
with `applyBrowserRun`. -/
def splitVideoBrowserSession (env : CodecEnv) (s : Session) : Session :=
  match s.selectedFile with
  | none => s
  | some f => applyBrowserRun s (splitVideoBrowser env f s.videoDuration)

/-! ## Remote processing (`splitVideoServer`) -/

/-- One `{name, partNumber}` descriptor from the service's `completed`
status payload. -/
structure PartDesc where
  name : String
  partNumber : ℕ
deriving DecidableEq

/-- One response of `GET /status/{jobId}`: a non-ok HTTP response, or a
body with status `error` / `processing` / `completed`. -/
inductive PollResponse
  | httpFail
  | errorStatus (detail : Option String)
  | running (progress : ℚ)
  | completed (progress : ℚ) (files : List PartDesc)
deriving DecidableEq

/-- The remote job service collaborator: the upload outcome (the assigned
job id, or `none` for a non-ok `POST /split`), and the scripted sequence
of status responses the service returns to successive polls. -/
structure ServerEnv where
  uploadResult : Option String
  responses : List PollResponse
deriving DecidableEq

/-- The `while (true)` polling loop of `splitVideoServer`, consuming the
scripted responses (the construction of per-part `downloadUrl` strings is
omitted together with the opaque references).  Also returns how many
polls were issued.  An exhausted script (empty list) leaves the loop
still in flight.  Note the loop consults no cancellation flag of any
kind: its behaviour depends only on the script and the session it is
handed. -/
def pollLoop : List PollResponse → Session → Session × ℕ
  | [], s => (s, 0)
  | PollResponse.httpFail :: _, s =>
      ({ s with status := Status.error,
                error := some (SessionError.serverProcessing
                  ServerCause.statusFetchFailed) }, 1)
  | PollResponse.errorStatus detail :: _, s =>
      ({ s with status := Status.error,
                error := some (SessionError.serverProcessing
                  (ServerCause.remote detail)) }, 1)
  | PollResponse.running p :: rest, s =>
      let next := pollLoop rest { s with progress := p }
      (next.1, next.2 + 1)
  | PollResponse.completed p files :: _, s =>
      ({ s with progress := p,
                splitFiles := files.map (fun pd =>
                  { name := pd.name, partNumber := pd.partNumber }),
                status := Status.completed }, 1)

/-- `splitVideoServer` (source lines 95-151): guard on `selectedFile`,
set `processing`/progress 0, upload; on success store the job id in
`currentJobIdRef` and run the polling loop to its end. -/
def splitVideoServer (senv : ServerEnv) (s : Session) : Session :=
  match s.selectedFile with
  | none => s
  | some _ =>
    match senv.uploadResult with
    | none =>
        { s with status := Status.error, progress := 0,
                 error := some (SessionError.serverProcessing
                   ServerCause.uploadFailed) }
    | some jobId =>
        (pollLoop senv.responses
          { s with status := Status.processing, progress := 0,
                   currentJobId := some jobId }).1

/-- A remote run during which the user hits reset after the `k`-th poll:
the first `k` scripted responses are applied by the loop, then
`handleReset` runs (issuing its job delete and clearing the state), and
then — because the source's `while (true)` loop checks no cancellation
flag and its closure still holds `jobId` — the remaining responses are
still polled and their updates still applied to the (already reset)
session.  The second component counts the polls issued after the reset. -/
def resetDuringServerRun (senv : ServerEnv) (k : ℕ) (s : Session) :
    Session × ℕ :=
  match s.selectedFile with
  | none => (s, 0)
  | some _ =>
    match senv.uploadResult with
    | none =>
        ({ s with status := Status.error, progress := 0,
                  error := some (SessionError.serverProcessing
                    ServerCause.uploadFailed) }, 0)
    | some jobId =>
        let before := (pollLoop (senv.responses.take k)
          { s with status := Status.processing, progress := 0,
                   currentJobId := some jobId }).1
        let afterReset := (handleReset before).session
        pollLoop (senv.responses.drop k) afterReset

/-! ## Dispatch and rendering guards -/

/-- `handleSplit` (source lines 216-222): dispatch on
`useServerProcessing`; there is no other check of any kind before
processing starts. -/
def handleSplit (s : Session) (cenv : CodecEnv) (senv : ServerEnv) : Session :=
  if s.useServerProcessing then splitVideoServer senv s
  else splitVideoBrowserSession cenv s

/-- The render guard of the split button (source line 320):
`status === 'ready' && videoDuration > SEGMENT_DURATION`. -/
def splitButtonVisible (s : Session) : Bool :=
  (s.status == Status.ready) && decide (SEGMENT_DURATION < s.videoDuration)

/-! ## Concrete fixtures used by witnesses and counterexamples -/

/-- A 50 MiB, 300 s video — the spec's Scenario A file. -/
def f0small : MediaFile :=
  { name := "video.mp4", size := 52428800, mediaType := "video/mp4" }

/-- A 400 MiB video — the spec's Scenario B file (remote path). -/
def f400 : MediaFile :=
  { name := "big.mp4", size := 419430400, mediaType := "video/mp4" }

/-- A non-video file. -/
def fbad : MediaFile :=
  { name := "doc.pdf", size := 1000, mediaType := "application/pdf" }

/-- A ready session holding a 60 s small video on the local path (the
spec's Scenario C situation). -/
def sReady60 : Session :=
  { status := Status.ready, error := none, warning := some Warning.noSplitNeeded,
    progress := 0, selectedFile := some f0small, videoDuration := 60,
    splitFiles := [], useServerProcessing := false, currentJobId := none }

/-- A ready session holding the 400 MiB / 600 s video on the remote
path. -/
def sRemote : Session :=
  { status := Status.ready, error := none,
    warning := some Warning.largeFileUsingRemote, progress := 0,
    selectedFile := some f400, videoDuration := 600, splitFiles := [],
    useServerProcessing := true, currentJobId := none }

/-- A completed remote session whose job id is still in the ref. -/
def sDone : Session :=
  { status := Status.completed, error := none, warning := none, progress := 100,
    selectedFile := some f400, videoDuration := 600,
    splitFiles := [{ name := "big_part1.mp4", partNumber := 1 }],
    useServerProcessing := true, currentJobId := some "job-1" }

/-- A server environment whose job reports 42 %, then completes. -/
def senvC5 : ServerEnv :=
  { uploadResult := some "job-1",
    responses := [PollResponse.running 42,
      PollResponse.completed 100 [{ name := "big_part1.mp4", partNumber := 1 }]] }

/-- A server environment that is never reached on the local path. -/
def senv0 : ServerEnv := { uploadResult := none, responses := [] }

/-- A codec environment whose very first transcode fails. -/
def envRun0Fail : CodecEnv :=
  { loadOk := true, fetchOk := true, runOk := fun _ => false,
    readOk := fun _ => true }

/-! ## Helper lemmas -/

theorem numPartsOf_300 : numPartsOf (300 : ℚ) = 3 := by
  have h : Int.ceil ((300 : ℚ) / SEGMENT_DURATION) = 3 := by
    rw [Int.ceil_eq_iff]
    constructor <;> norm_num [SEGMENT_DURATION]
  unfold numPartsOf
  rw [h]
  rfl

theorem numPartsOf_60 : numPartsOf (60 : ℚ) = 1 := by
  have h : Int.ceil ((60 : ℚ) / SEGMENT_DURATION) = 1 := by
    rw [Int.ceil_eq_iff]
    constructor <;> norm_num [SEGMENT_DURATION]
  unfold numPartsOf
  rw [h]
  rfl

/-- A run whose outcome is a success has executed every remaining
iteration of the loop: the published list, the progress trace and the
issued transcode invocations extend the accumulators by the closed-form
values per segment index. -/
theorem segLoop_ok_char (env : CodecEnv) (b : String) (N : ℕ) :
    ∀ (r i : ℕ) (fs : List BufName) (files : List SplitFile) (prog : List ℚ)
      (cmds : List TranscodeCmd) (L : List SplitFile),
      (segLoop env b N r i fs files prog cmds).outcome = Except.ok L →
      L = files ++ (List.range' i r).map (segFile b) ∧
      (segLoop env b N r i fs files prog cmds).progressTrace =
        prog ++ trailProg N r i ∧
      (segLoop env b N r i fs files prog cmds).cmds =
        cmds ++ (List.range' i r).map segCmd := by
  intro r
  induction r with
  | zero =>
      intro i fs files prog cmds L h
      simp only [segLoop, Except.ok.injEq] at h
      simp [segLoop, trailProg, h]
  | succ r ih =>
      intro i fs files prog cmds L h
      cases hrun : env.runOk i with
      | false =>
          simp [segLoop, hrun] at h
      | true =>
          cases hread : env.readOk i with
          | false =>
              simp [segLoop, hrun, hread] at h
          | true =>
              simp only [segLoop, hrun, hread, if_true] at h ⊢
              obtain ⟨e1, e2, e3⟩ := ih (i + 1) _ _ _ _ L h
              refine ⟨?_, ?_, ?_⟩
              · rw [e1]
                simp [List.range'_succ, List.append_assoc]
              · rw [e2]
                simp [trailProg, List.append_assoc]
              · rw [e3]
                simp [List.range'_succ, List.append_assoc]

/-- Under `envAllOk` every run of the loop succeeds with the closed-form
segment list. -/
theorem segLoop_allOk_ok (b : String) (N : ℕ) :
    ∀ (r i : ℕ) (fs : List BufName) (files : List SplitFile) (prog : List ℚ)
      (cmds : List TranscodeCmd),
      (segLoop envAllOk b N r i fs files prog cmds).outcome =
        Except.ok (files ++ (List.range' i r).map (segFile b)) := by
  intro r
  induction r with
  | zero =>
      intro i fs files prog cmds
      simp [segLoop]
  | succ r ih =>
      intro i fs files prog cmds
      have h := ih (i + 1) ((fs ++ [BufName.output i]).erase (BufName.output i))
        (files ++ [segFile b i]) ((prog ++ [midProg N i]) ++ [endProg N i])
        (cmds ++ [segCmd i])
      simpa [segLoop, envAllOk, List.range'_succ, List.append_assoc] using h

/-- If the loop fails, the input buffer written before the loop is still
held in the runtime when the function exits: no path of the source
unlinks `'input.mp4'` on failure. -/
theorem segLoop_error_keeps_input (env : CodecEnv) (b : String) (N : ℕ) :
    ∀ (r i : ℕ) (fs : List BufName) (files : List SplitFile) (prog : List ℚ)
      (cmds : List TranscodeCmd) (c : LocalCause),
      (segLoop env b N r i fs files prog cmds).outcome = Except.error c →
      BufName.input ∈ fs →
      BufName.input ∈ (segLoop env b N r i fs files prog cmds).fsBuffers := by
  intro r
  induction r with
  | zero =>
      intro i fs files prog cmds c h _
      simp [segLoop] at h
  | succ r ih =>
      intro i fs files prog cmds c h hmem
      cases hrun : env.runOk i with
      | false =>
          simp only [segLoop, hrun, Bool.false_eq_true, if_false]
          exact hmem
      | true =>
          cases hread : env.readOk i with
          | false =>
              simp only [segLoop, hrun, hread, if_true, Bool.false_eq_true, if_false]
              exact List.mem_append_left _ hmem
          | true =>
              simp only [segLoop, hrun, hread, if_true] at h ⊢
              refine ih (i + 1) _ _ _ _ c h ?_
              exact (List.mem_erase_of_ne (by simp)).mpr
                (List.mem_append_left _ hmem)

/-- The full-run closed form of the outcome under `envAllOk`. -/
theorem splitVideoBrowser_allOk_outcome (f : MediaFile) (d : ℚ) :
    (splitVideoBrowser envAllOk f d).outcome =
      Except.ok ((List.range (numPartsOf d)).map (segFile (getBaseName f.name))) := by
  have h := segLoop_allOk_ok (getBaseName f.name) (numPartsOf d) (numPartsOf d) 0
    [BufName.input] [] [0] []
  simpa [splitVideoBrowser, envAllOk, List.range_eq_range'] using h

/-- The full-run closed form of the issued transcode invocations under
`envAllOk`. -/
theorem splitVideoBrowser_allOk_cmds (f : MediaFile) (d : ℚ) :
    (splitVideoBrowser envAllOk f d).cmds =
      (List.range (numPartsOf d)).map segCmd := by
  have h1 := segLoop_allOk_ok (getBaseName f.name) (numPartsOf d) (numPartsOf d) 0
    [BufName.input] [] [0] []
  have h2 := segLoop_ok_char envAllOk (getBaseName f.name) (numPartsOf d)
    (numPartsOf d) 0 [BufName.input] [] [0] [] _ h1
  simpa [splitVideoBrowser, envAllOk, List.range_eq_range'] using h2.2.2

/-- A first-iteration transcode failure exits the loop at once, keeping
the buffers written so far. -/
theorem segLoop_runFail_step (env : CodecEnv) (b : String) (N r i : ℕ)
    (fs : List BufName) (files : List SplitFile) (prog : List ℚ)
    (cmds : List TranscodeCmd) (hrun : env.runOk i = false) :
    segLoop env b N (r + 1) i fs files prog cmds =
      { outcome := Except.error (LocalCause.transcodeFailed i),
        fsBuffers := fs,
        progressTrace := prog ++ [midProg N i],
        cmds := cmds ++ [segCmd i] } := by
  simp [segLoop, hrun]

/-- Concrete evaluation of the failing fixture run. -/
theorem splitVideoBrowser_run0Fail_300 :
    splitVideoBrowser envRun0Fail f0small (300 : ℚ) =
      { outcome := Except.error (LocalCause.transcodeFailed 0),
        fsBuffers := [BufName.input],
        progressTrace := [0] ++ [midProg 3 0],
        cmds := [] ++ [segCmd 0] } := by
  have h3 : numPartsOf (300 : ℚ) = 2 + 1 := numPartsOf_300
  have hstep := segLoop_runFail_step envRun0Fail (getBaseName f0small.name) (2 + 1) 2 0
    [BufName.input] [] [0] [] rfl
  simp only [envRun0Fail] at hstep
  simp [splitVideoBrowser, envRun0Fail, h3]
  exact hstep

theorem scale_le_scale (a b : ℚ) (N : ℕ) (h : a ≤ b) :
    a / (N : ℚ) * 100 ≤ b / (N : ℚ) * 100 := by
  have h2 : a / (N : ℚ) ≤ b / (N : ℚ) := by
    rw [div_eq_mul_inv, div_eq_mul_inv]
    exact mul_le_mul_of_nonneg_right h (by positivity)
  exact mul_le_mul_of_nonneg_right h2 (by norm_num)

theorem midProg_le_endProg (N i : ℕ) : midProg N i ≤ endProg N i := by
  unfold midProg endProg
  exact scale_le_scale _ _ N (by norm_num)

theorem endProg_le_midProg_succ (N i : ℕ) : endProg N i ≤ midProg N (i + 1) := by
  unfold midProg endProg
  apply scale_le_scale
  push_cast
  linarith

theorem zero_le_midProg (N : ℕ) : (0 : ℚ) ≤ midProg N 0 := by
  unfold midProg
  positivity

/-- The progress values of the remaining iterations are non-decreasing
after any starting value below the next midpoint. -/
theorem chain_trail (N : ℕ) :
    ∀ (r i : ℕ) (x : ℚ), x ≤ midProg N i →
      List.Chain' (· ≤ ·) (x :: trailProg N r i) := by
  intro r
  induction r with
  | zero =>
      intro i x _
      simp [trailProg]
  | succ r ih =>
      intro i x hx
      simp only [trailProg]
      exact List.chain'_cons.mpr ⟨hx, List.chain'_cons.mpr
        ⟨midProg_le_endProg N i, ih (i + 1) _ (endProg_le_midProg_succ N i)⟩⟩

/-- The last progress value of a non-empty trail is the final segment's
endpoint value. -/
theorem trail_getLast (N : ℕ) :
    ∀ (r i : ℕ) (x : ℚ),
      (x :: trailProg N (r + 1) i).getLast? = some (endProg N (i + r)) := by
  intro r
  induction r with
  | zero =>
      intro i x
      simp [trailProg]
  | succ r ih =>
      intro i x
      have h := ih (i + 1) (endProg N i)
      rw [show (i + 1) + r = i + (r + 1) from by omega] at h
      simp only [trailProg] at h ⊢
      rw [List.getLast?_cons_cons, List.getLast?_cons_cons]
      rw [List.getLast?_cons_cons] at h
      exact h

theorem endProg_last (m : ℕ) : endProg (m + 1) m = 100 := by
  unfold endProg
  have h : ((m : ℚ) + 1) ≠ 0 := by positivity
  push_cast
  rw [div_self h, one_mul]

/-! ## Claim theorems -/

/-- C1: for every selected video file, the decision of `handleFileSelect`
follows the rule order: a file over `SERVER_MAX_SIZE` (5 GiB) is rejected
as a validation failure before any path or duration logic (the result is
the same for every probe outcome and leaves the selected file, duration
and path flag untouched); otherwise a probed duration of at most
`SEGMENT_DURATION` (120 s) yields the no-split-needed warning regardless
of size; otherwise a size over `BROWSER_MAX_SIZE` (300 MiB) takes the
remote path with the large-file warning; otherwise the local path with no
warning. -/
theorem claim_C1 (s : Session) (f : MediaFile)
    (hv : isVideoType f.mediaType = true) :
    (SERVER_MAX_SIZE < f.size →
      ∀ p : ProbeResult,
        handleFileSelect s (some f) p =
          { session := { s with error := some SessionError.fileTooLarge,
                                warning := none, splitFiles := [], progress := 0,
                                status := Status.error },
            cancelRequested := none }) ∧
    (f.size ≤ SERVER_MAX_SIZE →
      ∀ d : ℚ, d ≤ SEGMENT_DURATION →
        (handleFileSelect s (some f) (ProbeResult.ok d)).session.warning =
          some Warning.noSplitNeeded) ∧
    (f.size ≤ SERVER_MAX_SIZE → BROWSER_MAX_SIZE < f.size →
      ∀ d : ℚ, SEGMENT_DURATION < d →
        (handleFileSelect s (some f) (ProbeResult.ok d)).session.warning =
          some Warning.largeFileUsingRemote ∧
        (handleFileSelect s (some f)
          (ProbeResult.ok d)).session.useServerProcessing = true) ∧
    (f.size ≤ SERVER_MAX_SIZE → f.size ≤ BROWSER_MAX_SIZE →
      ∀ d : ℚ, SEGMENT_DURATION < d →
        (handleFileSelect s (some f) (ProbeResult.ok d)).session.warning = none ∧
        (handleFileSelect s (some f)
          (ProbeResult.ok d)).session.useServerProcessing = false) := by
  refine ⟨?_, ?_, ?_, ?_⟩
  · intro hbig p
    simp [handleFileSelect, hv, hbig]
  · intro hle d hd
    have h1 : ¬ SERVER_MAX_SIZE < f.size := not_lt.mpr hle
    simp [handleFileSelect, hv, h1, hd]
  · intro hle hbig d hd
    have h1 : ¬ SERVER_MAX_SIZE < f.size := not_lt.mpr hle
    have h2 : ¬ d ≤ SEGMENT_DURATION := not_le.mpr hd
    simp [handleFileSelect, hv, h1, h2, hbig]
  · intro hle hsmall d hd
    have h1 : ¬ SERVER_MAX_SIZE < f.size := not_lt.mpr hle
    have h2 : ¬ d ≤ SEGMENT_DURATION := not_le.mpr hd
    have h3 : ¬ BROWSER_MAX_SIZE < f.size := not_lt.mpr hsmall
    simp [handleFileSelect, hv, h1, h2, h3]

/-- Witness for C1: the Scenario A file (50 MiB, 300 s) takes the local
path with no warning. -/
theorem claim_C1_witness :
    (handleFileSelect initialSession (some f0small)
      (ProbeResult.ok 300)).session.warning = none ∧
    (handleFileSelect initialSession (some f0small)
      (ProbeResult.ok 300)).session.useServerProcessing = false := by
  have h := (claim_C1 initialSession f0small (by decide)).2.2.2
  exact h (by decide) (by decide) 300 (by norm_num [SEGMENT_DURATION])

/-- C2 counterexample: with duration 300 s (N = 3) the third transcode
invocation carries the constant duration argument 120, not
`min(120, 300 - 2*120) = 60` as the claim states. -/
theorem claim_C2_cex :
    (splitVideoBrowser envAllOk f0small (300 : ℚ)).cmds.get? 2 = some (segCmd 2) ∧
    (segCmd 2).dur = SEGMENT_DURATION ∧
    min SEGMENT_DURATION ((300 : ℚ) - 2 * SEGMENT_DURATION) = 60 ∧
    (segCmd 2).dur ≠ min SEGMENT_DURATION ((300 : ℚ) - 2 * SEGMENT_DURATION) := by
  have hc := splitVideoBrowser_allOk_cmds f0small (300 : ℚ)
  rw [numPartsOf_300] at hc
  refine ⟨?_, rfl, ?_, ?_⟩
  · rw [hc]
    rfl
  · norm_num [SEGMENT_DURATION]
  · norm_num [segCmd, SEGMENT_DURATION]

/-- C2 (amended): in every completed local run, the transcode invocation
for segment `i` uses start offset `i * SEGMENT_DURATION`, stream-copy
mode and the drop-leading-negative-timestamps correction, but its
duration argument is the constant `SEGMENT_DURATION` (120) for every
segment, including the final one (the runtime clamps at end of input);
it is not `min(SEGMENT_DURATION, duration - i*SEGMENT_DURATION)`. -/
theorem claim_C2 (env : CodecEnv) (f : MediaFile) (d : ℚ)
    (hok : ∃ L, (splitVideoBrowser env f d).outcome = Except.ok L) :
    (splitVideoBrowser env f d).cmds = (List.range (numPartsOf d)).map segCmd ∧
    ∀ i : ℕ,
      segCmd i = { input := BufName.input, start := (i : ℚ) * SEGMENT_DURATION,
                   dur := SEGMENT_DURATION, streamCopy := true,
                   avoidNegativeTs := true, output := BufName.output i } := by
  obtain ⟨L, hok⟩ := hok
  refine ⟨?_, fun i => rfl⟩
  cases hL : env.loadOk with
  | false => simp [splitVideoBrowser, hL] at hok
  | true =>
    cases hF : env.fetchOk with
    | false => simp [splitVideoBrowser, hL, hF] at hok
    | true =>
      have h := segLoop_ok_char env (getBaseName f.name) (numPartsOf d)
        (numPartsOf d) 0 [BufName.input] [] [0] [] L
        (by simpa [splitVideoBrowser, hL, hF] using hok)
      simpa [splitVideoBrowser, hL, hF, List.range_eq_range'] using h.2.2

/-- Witness for C2 (amended) at the all-succeeding run on the Scenario A
file. -/
theorem claim_C2_witness :
    (splitVideoBrowser envAllOk f0small (300 : ℚ)).cmds =
      (List.range (numPartsOf (300 : ℚ))).map segCmd := by
  exact (claim_C2 envAllOk f0small 300
    ⟨_, splitVideoBrowser_allOk_outcome f0small 300⟩).1

/-- C3: every successful local run publishes exactly
`N = ceil(duration / 120)` segments, whose part numbers are exactly
`1..N` in increasing order with no duplicates or gaps, and whose names
are the source file's base name followed by the part suffix. -/
theorem claim_C3 (env : CodecEnv) (f : MediaFile) (d : ℚ)
    (hok : ∃ L, (splitVideoBrowser env f d).outcome = Except.ok L) :
    (splitVideoBrowser env f d).outcome =
      Except.ok ((List.range (numPartsOf d)).map (segFile (getBaseName f.name))) ∧
    ((List.range (numPartsOf d)).map (segFile (getBaseName f.name))).length =
      numPartsOf d ∧
    ((List.range (numPartsOf d)).map (segFile (getBaseName f.name))).map
      SplitFile.partNumber = List.range' 1 (numPartsOf d) ∧
    ∀ i : ℕ, i < numPartsOf d →
      ((List.range (numPartsOf d)).map (segFile (getBaseName f.name))).get? i =
        some { name := getBaseName f.name ++ "_part" ++ toString (i + 1) ++ ".mp4",
               partNumber := i + 1 } := by
  obtain ⟨L, hok⟩ := hok
  refine ⟨?_, by simp, ?_, ?_⟩
  · cases hL : env.loadOk with
    | false => simp [splitVideoBrowser, hL] at hok
    | true =>
      cases hF : env.fetchOk with
      | false => simp [splitVideoBrowser, hL, hF] at hok
      | true =>
        have h := segLoop_ok_char env (getBaseName f.name) (numPartsOf d)
          (numPartsOf d) 0 [BufName.input] [] [0] [] L
          (by simpa [splitVideoBrowser, hL, hF] using hok)
        rw [hok, h.1]
        simp [List.range_eq_range']
  · rw [List.map_map, List.range'_eq_map_range]
    exact List.map_congr_left (fun a _ => by simp [segFile, Nat.add_comm])
  · intro i hi
    simp [List.get?_eq_getElem?, List.getElem?_map, List.getElem?_range, hi, segFile]

/-- Witness for C3 at the all-succeeding run on the Scenario A file. -/
theorem claim_C3_witness :
    (splitVideoBrowser envAllOk f0small (300 : ℚ)).outcome =
      Except.ok ((List.range (numPartsOf (300 : ℚ))).map
        (segFile (getBaseName f0small.name))) ∧
    ((List.range (numPartsOf (300 : ℚ))).map
      (segFile (getBaseName f0small.name))).map SplitFile.partNumber =
      List.range' 1 (numPartsOf (300 : ℚ)) := by
  have h := claim_C3 envAllOk f0small 300
    ⟨_, splitVideoBrowser_allOk_outcome f0small 300⟩
  exact ⟨h.1, h.2.2.1⟩

/-- C4 counterexample: with the 60 s Scenario C session, invoking the
split action starts local processing and runs it to completion — it is
not rejected (the source has no no-op check of any kind in
`handleSplit`, and no `NoOpError` exists anywhere in it). -/
theorem claim_C4_cex :
    sReady60.videoDuration ≤ SEGMENT_DURATION ∧
    (handleSplit sReady60 envAllOk senv0).status = Status.completed ∧
    (handleSplit sReady60 envAllOk senv0).error = none ∧
    (handleSplit sReady60 envAllOk senv0).splitFiles.length = 1 := by
  have hout := splitVideoBrowser_allOk_outcome f0small (60 : ℚ)
  rw [numPartsOf_60] at hout
  have hs : handleSplit sReady60 envAllOk senv0 =
      applyBrowserRun sReady60 (splitVideoBrowser envAllOk f0small 60) := by
    simp [handleSplit, sReady60, splitVideoBrowserSession]
  refine ⟨by norm_num [sReady60, SEGMENT_DURATION], ?_, ?_, ?_⟩ <;>
    rw [hs] <;> simp [applyBrowserRun, hout, sReady60]

/-- C4 (amended): when the current duration needs no split
(`duration <= 120`), the split action is prevented only by the UI render
guard — the split button is shown only when the status is `ready` and
the duration exceeds `SEGMENT_DURATION` — while `handleSplit` itself
performs no no-op rejection: invoked on the local path it dispatches to
processing and completes. -/
theorem claim_C4 (s : Session) (senv : ServerEnv) (f : MediaFile)
    (hd : s.videoDuration ≤ SEGMENT_DURATION) (hf : s.selectedFile = some f)
    (hl : s.useServerProcessing = false) :
    splitButtonVisible s = false ∧
    (handleSplit s envAllOk senv).status = Status.completed := by
  constructor
  · have h2 : decide (SEGMENT_DURATION < s.videoDuration) = false :=
      decide_eq_false (not_lt.mpr hd)
    simp [splitButtonVisible, h2]
  · have hout := splitVideoBrowser_allOk_outcome f s.videoDuration
    simp [handleSplit, hl, splitVideoBrowserSession, hf, applyBrowserRun, hout]

/-- Witness for C4 (amended) at the Scenario C session. -/
theorem claim_C4_witness :
    splitButtonVisible sReady60 = false ∧
    (handleSplit sReady60 envAllOk senv0).status = Status.completed := by
  exact claim_C4 sReady60 senv0 f0small
    (by norm_num [sReady60, SEGMENT_DURATION]) rfl rfl

/-- C5: the source violates the claim.  A remote run is reset after its
first poll; the `while (true)` loop of `splitVideoServer` checks no
cancellation flag, so it issues one further poll after the reset and
applies its result to the session: the session the user just reset ends
up `completed` with a non-empty segment list instead of staying `idle`.
This contradicts `handleReset`'s own intent, which deletes the job
server-side and clears the ref precisely so that the session stops
tracking the job. -/
theorem claim_C5 :
    (resetDuringServerRun senvC5 1 sRemote).2 = 1 ∧
    (resetDuringServerRun senvC5 1 sRemote).1.status = Status.completed ∧
    (resetDuringServerRun senvC5 1 sRemote).1.status ≠ Status.idle ∧
    (resetDuringServerRun senvC5 1 sRemote).1.splitFiles ≠ [] := by
  exact ⟨rfl, rfl, by decide, by decide⟩

/-- C6 counterexample: when the first transcode of a run fails, the
input buffer written into the runtime is NOT released — the run exits
with `'input.mp4'` still held (the source unlinks it only on the success
path; there is no release on failure). -/
theorem claim_C6_cex :
    (splitVideoBrowser envRun0Fail f0small (300 : ℚ)).outcome =
      Except.error (LocalCause.transcodeFailed 0) ∧
    (splitVideoBrowser envRun0Fail f0small (300 : ℚ)).fsBuffers =
      [BufName.input] ∧
    (splitVideoBrowser envRun0Fail f0small (300 : ℚ)).fsBuffers ≠ [] := by
  rw [splitVideoBrowser_run0Fail_300]
  exact ⟨rfl, rfl, by simp⟩

/-- C6 (amended): a local run in which a step fails after the input was
written is all-or-nothing for the published list and surfaces the error
with its cause — the visible segment list is left as it was and the
status becomes `error` with a local-processing error — but the buffers
written into the runtime are NOT all released: the input buffer is still
held when the run exits. -/
theorem claim_C6 (s : Session) (env : CodecEnv) (f : MediaFile) (d : ℚ)
    (c : LocalCause) (hL : env.loadOk = true) (hF : env.fetchOk = true)
    (herr : (splitVideoBrowser env f d).outcome = Except.error c) :
    (applyBrowserRun s (splitVideoBrowser env f d)).splitFiles = s.splitFiles ∧
    (applyBrowserRun s (splitVideoBrowser env f d)).status = Status.error ∧
    (applyBrowserRun s (splitVideoBrowser env f d)).error =
      some (SessionError.localProcessing c) ∧
    BufName.input ∈ (splitVideoBrowser env f d).fsBuffers := by
  refine ⟨by simp [applyBrowserRun, herr], by simp [applyBrowserRun, herr],
    by simp [applyBrowserRun, herr], ?_⟩
  have hsp : splitVideoBrowser env f d =
      segLoop env (getBaseName f.name) (numPartsOf d) (numPartsOf d) 0
        [BufName.input] [] [0] [] := by
    simp [splitVideoBrowser, hL, hF]
  rw [hsp]
  refine segLoop_error_keeps_input env (getBaseName f.name) (numPartsOf d)
    (numPartsOf d) 0 [BufName.input] [] [0] [] c ?_ (by simp)
  rw [← hsp]
  exact herr

/-- Witness for C6 (amended) at the failing fixture run. -/
theorem claim_C6_witness :
    (applyBrowserRun initialSession
      (splitVideoBrowser envRun0Fail f0small (300 : ℚ))).splitFiles =
      initialSession.splitFiles ∧
    (applyBrowserRun initialSession
      (splitVideoBrowser envRun0Fail f0small (300 : ℚ))).status = Status.error ∧
    BufName.input ∈ (splitVideoBrowser envRun0Fail f0small (300 : ℚ)).fsBuffers := by
  have h := claim_C6 initialSession envRun0Fail f0small 300
    (LocalCause.transcodeFailed 0) rfl rfl
    (by rw [splitVideoBrowser_run0Fail_300])
  exact ⟨h.1, h.2.1, h.2.2.2⟩

/-- C7 counterexample: from a state whose job id is known (`job-1`),
selecting a new valid file issues NO delete request for that job — the
claimed best-effort cancellation does not happen (only `handleReset`
cancels). -/
theorem claim_C7_cex :
    sDone.currentJobId = some "job-1" ∧
    (handleFileSelect sDone (some f0small)
      (ProbeResult.ok 300)).cancelRequested = none ∧
    (handleFileSelect sDone (some f0small)
      (ProbeResult.ok 300)).session.currentJobId = some "job-1" := by
  exact ⟨rfl, rfl, rfl⟩

/-- C7 (amended): from every state, `handleFileSelect` never issues a
cancellation and leaves the stored job id unchanged — best-effort
cancellation of a known job happens only on reset; for a selected video
within the size ceiling the session is restarted through the probe flow:
segments and progress cleared, the new file selected, status `ready` and
no error on probe success. -/
theorem claim_C7 (s : Session) :
    (∀ (file? : Option MediaFile) (p : ProbeResult),
        (handleFileSelect s file? p).cancelRequested = none ∧
        (handleFileSelect s file? p).session.currentJobId = s.currentJobId) ∧
    (∀ (f : MediaFile) (d : ℚ), isVideoType f.mediaType = true →
        f.size ≤ SERVER_MAX_SIZE →
        (handleFileSelect s (some f) (ProbeResult.ok d)).session.status =
          Status.ready ∧
        (handleFileSelect s (some f) (ProbeResult.ok d)).session.selectedFile =
          some f ∧
        (handleFileSelect s (some f) (ProbeResult.ok d)).session.splitFiles = [] ∧
        (handleFileSelect s (some f) (ProbeResult.ok d)).session.progress = 0 ∧
        (handleFileSelect s (some f) (ProbeResult.ok d)).session.error = none) := by
  constructor
  · intro file? p
    rcases file? with _ | f
    · exact ⟨rfl, rfl⟩
    · rcases p with d | _ <;>
        · by_cases h1 : isVideoType f.mediaType = false
          · simp [handleFileSelect, h1]
          · by_cases h2 : SERVER_MAX_SIZE < f.size
            · simp [handleFileSelect, h1, h2]
            · simp [handleFileSelect, h1, h2]
  · intro f d hv hle
    have h1 : ¬ SERVER_MAX_SIZE < f.size := not_lt.mpr hle
    simp [handleFileSelect, hv, h1]

/-- Witness for C7 (amended): selecting the Scenario B file from the
completed remote session. -/
theorem claim_C7_witness :
    (handleFileSelect sDone (some f400)
      (ProbeResult.ok 600)).cancelRequested = none ∧
    (handleFileSelect sDone (some f400)
      (ProbeResult.ok 600)).session.currentJobId = sDone.currentJobId ∧
    (handleFileSelect sDone (some f400)
      (ProbeResult.ok 600)).session.status = Status.ready ∧
    (handleFileSelect sDone (some f400)
      (ProbeResult.ok 600)).session.error = none := by
  obtain ⟨h1, h2⟩ := claim_C7 sDone
  exact ⟨(h1 (some f400) (ProbeResult.ok 600)).1,
    (h1 (some f400) (ProbeResult.ok 600)).2,
    (h2 f400 600 (by decide) (by decide)).1,
    (h2 f400 600 (by decide) (by decide)).2.2.2.2⟩

/-- C8: in every completed local run with at least one segment, the
reported progress sequence is 0 followed by the midpoint and endpoint
values of each segment in order, it is non-decreasing across the run,
and its final value is exactly 100. -/
theorem claim_C8 (env : CodecEnv) (f : MediaFile) (d : ℚ)
    (hok : ∃ L, (splitVideoBrowser env f d).outcome = Except.ok L)
    (hN : 0 < numPartsOf d) :
    (splitVideoBrowser env f d).progressTrace =
      0 :: trailProg (numPartsOf d) (numPartsOf d) 0 ∧
    List.Chain' (· ≤ ·) ((splitVideoBrowser env f d).progressTrace) ∧
    ((splitVideoBrowser env f d).progressTrace).getLast? = some 100 := by
  obtain ⟨L, hok⟩ := hok
  cases hL : env.loadOk with
  | false => simp [splitVideoBrowser, hL] at hok
  | true =>
    cases hF : env.fetchOk with
    | false => simp [splitVideoBrowser, hL, hF] at hok
    | true =>
      have h := segLoop_ok_char env (getBaseName f.name) (numPartsOf d)
        (numPartsOf d) 0 [BufName.input] [] [0] [] L
        (by simpa [splitVideoBrowser, hL, hF] using hok)
      have htr : (splitVideoBrowser env f d).progressTrace =
          0 :: trailProg (numPartsOf d) (numPartsOf d) 0 := by
        simpa [splitVideoBrowser, hL, hF] using h.2.1
      refine ⟨htr, ?_, ?_⟩
      · rw [htr]
        exact chain_trail (numPartsOf d) (numPartsOf d) 0 0
          (zero_le_midProg (numPartsOf d))
      · obtain ⟨m, hm⟩ : ∃ m, numPartsOf d = m + 1 :=
          ⟨numPartsOf d - 1, (Nat.succ_pred_eq_of_pos hN).symm⟩
        rw [htr, hm]
        have h2 := trail_getLast (m + 1) m 0 (0 : ℚ)
        rw [h2]
        simp [endProg_last]

/-- Witness for C8 at the all-succeeding run on the Scenario A file. -/
theorem claim_C8_witness :
    0 < numPartsOf (300 : ℚ) ∧
    List.Chain' (· ≤ ·)
      ((splitVideoBrowser envAllOk f0small (300 : ℚ)).progressTrace) ∧
    ((splitVideoBrowser envAllOk f0small (300 : ℚ)).progressTrace).getLast? =
      some 100 := by
  have hN : 0 < numPartsOf (300 : ℚ) := by rw [numPartsOf_300]; norm_num
  have h := claim_C8 envAllOk f0small 300
    ⟨_, splitVideoBrowser_allOk_outcome f0small 300⟩ hN
  exact ⟨hN, h.2.1, h.2.2⟩

/-- C9: from every state, `handleReset` returns the session to `idle`
with empty segments, no selected file, zero duration and progress, no
warning or error, and no retained job id usable for further polling;
the best-effort delete request is issued for exactly the job id that was
last known (if any) before the reference is cleared. -/
theorem claim_C9 (s : Session) :
    (handleReset s).session.status = Status.idle ∧
    (handleReset s).session.splitFiles = [] ∧
    (handleReset s).session.selectedFile = none ∧
    (handleReset s).session.videoDuration = 0 ∧
    (handleReset s).session.progress = 0 ∧
    (handleReset s).session.warning = none ∧
    (handleReset s).session.error = none ∧
    (handleReset s).session.currentJobId = none ∧
    (handleReset s).cancelRequested = s.currentJobId := by
  exact ⟨rfl, rfl, rfl, rfl, rfl, rfl, rfl, rfl, rfl⟩

/-- C10: when a newly picked file fails validation (non-video kind, or
over 5 GiB), only the error message and status are set after the entry
clearing of error, warning, segments and progress; the previously
selected file, its probed duration, the path flag and the job id are all
left unchanged, and no cancellation is issued. -/
theorem claim_C10 (s : Session) (f : MediaFile) (p : ProbeResult)
    (h : isVideoType f.mediaType = false ∨ SERVER_MAX_SIZE < f.size) :
    (handleFileSelect s (some f) p).session.selectedFile = s.selectedFile ∧
    (handleFileSelect s (some f) p).session.videoDuration = s.videoDuration ∧
    (handleFileSelect s (some f) p).session.useServerProcessing =
      s.useServerProcessing ∧
    (handleFileSelect s (some f) p).session.currentJobId = s.currentJobId ∧
    (handleFileSelect s (some f) p).session.warning = none ∧
    (handleFileSelect s (some f) p).session.splitFiles = [] ∧
    (handleFileSelect s (some f) p).session.progress = 0 ∧
    (handleFileSelect s (some f) p).session.status = Status.error ∧
    (handleFileSelect s (some f) p).cancelRequested = none ∧
    ((handleFileSelect s (some f) p).session.error = some SessionError.notAVideo ∨
     (handleFileSelect s (some f) p).session.error =
       some SessionError.fileTooLarge) := by
  rcases h with h | h
  · simp [handleFileSelect, h]
  · by_cases hv : isVideoType f.mediaType = false
    · simp [handleFileSelect, hv]
    · simp only [Bool.not_eq_false] at hv
      simp [handleFileSelect, hv, h]

/-- Witness for C10: picking a PDF over an idle session. -/
theorem claim_C10_witness :
    (handleFileSelect initialSession (some fbad)
      (ProbeResult.ok 10)).session.selectedFile = none ∧
    (handleFileSelect initialSession (some fbad)
      (ProbeResult.ok 10)).session.videoDuration = 0 ∧
    (handleFileSelect initialSession (some fbad)
      (ProbeResult.ok 10)).session.status = Status.error ∧
    ((handleFileSelect initialSession (some fbad)
        (ProbeResult.ok 10)).session.error = some SessionError.notAVideo ∨
     (handleFileSelect initialSession (some fbad)
        (ProbeResult.ok 10)).session.error = some SessionError.fileTooLarge) := by
  have h := claim_C10 initialSession fbad (ProbeResult.ok 10) (Or.inl (by decide))
  exact ⟨h.1, h.2.1, h.2.2.2.2.2.2.2.1, h.2.2.2.2.2.2.2.2.2⟩

end VideoSplitter
